import Mathlib

/-!
Shallow embedding of the space-mission dashboard pipeline (src/main.py):
date-normalised mission rows, country derivation from location strings via a
fixed alias table, ISO alpha-3 resolution, and the seven aggregation branches
of the analysis selector.  Group-by operations mirror pandas semantics:
keys are the distinct key values (first-appearance order) sorted ascending,
each paired with the number of matching rows.
-/

namespace SpaceMissions

/-- Calendar date as parsed by the loader; rows whose raw date string does not
parse carry no date (pandas NaT). -/
structure Date where
  year : Nat
  month : Nat
  day : Nat
deriving DecidableEq

/-- Boolean lexicographic order on dates (year, month, day). -/
def dateLeB (a b : Date) : Bool :=
  if a.year < b.year then true
  else if b.year < a.year then false
  else if a.month < b.month then true
  else if b.month < a.month then false
  else a.day ≤ b.day

/-- Ordering of dates used when pandas sorts group keys. -/
def DateLe (a b : Date) : Prop := dateLeB a b = true

instance : DecidableRel DateLe := fun a b => Bool.decEq (dateLeB a b) true

/-- Boolean strict order on strings, comparing character codes left to right. -/
def strLtGo : List Char → List Char → Bool
  | [], [] => false
  | [], _ :: _ => true
  | _ :: _, [] => false
  | c :: cs, d :: ds =>
    if c.toNat < d.toNat then true
    else if d.toNat < c.toNat then false
    else strLtGo cs ds

/-- Boolean strict order on strings. -/
def strLtB (a b : String) : Bool := strLtGo a.data b.data

/-- Boolean reflexive order on strings. -/
def strLeB (a b : String) : Bool := a == b || strLtB a b

/-- Ordering of string group keys (pandas sorts group keys ascending). -/
def StrLe (a b : String) : Prop := strLeB a b = true

instance : DecidableRel StrLe := fun a b => Bool.decEq (strLeB a b) true

/-- Ordering of (year, string) group keys: by year, then by the string. -/
def YearStrLe (a b : Nat × String) : Prop :=
  (decide (a.1 < b.1) || (a.1 == b.1 && strLeB a.2 b.2)) = true

instance : DecidableRel YearStrLe :=
  fun a b => Bool.decEq (decide (a.1 < b.1) || (a.1 == b.1 && strLeB a.2 b.2)) true

/-- Ordering of (Country, Country Code) group keys. -/
def StrStrLe (a b : String × String) : Prop :=
  (strLtB a.1 b.1 || (a.1 == b.1 && strLeB a.2 b.2)) = true

instance : DecidableRel StrStrLe :=
  fun a b => Bool.decEq (strLtB a.1 b.1 || (a.1 == b.1 && strLeB a.2 b.2)) true

/-- Descending order on counted pairs, used by value_counts and by the
sort_values(ascending=False) step of the top-10 selection. -/
def CountGe (a b : String × Nat) : Prop := b.2 ≤ a.2

instance : DecidableRel CountGe := fun a b => Nat.decLe b.2 a.2

/-- Raw CSV row before normalisation: Location, Date (unparsed), Organisation,
Mission_Status. -/
structure RawRow where
  location : String
  dateStr : String
  organisation : String
  missionStatus : String
deriving DecidableEq

/-- Normalised mission row: parsed date (none when unparseable), the derived
Country and Country Code columns added by load_data. -/
structure Row where
  location : String
  date : Option Date
  organisation : String
  missionStatus : String
  country : String
  countryCode : String
deriving DecidableEq

/-- Alias table of load_data: historically or politically ambiguous location
tokens mapped to canonical country names (the update dict). -/
def update : List (String × String) :=
  [("Russia", "Russian Federation"),
   ("New Mexico", "USA"),
   ("Yellow Sea", "China"),
   ("Shahrud Missile Test Site", "Iran, Islamic Republic of"),
   ("Pacific Missile Range Facility", "USA"),
   ("Barents Sea", "Russian Federation"),
   ("Gran Canaria", "USA"),
   ("Marshall Islands", "USA"),
   ("Iran", "Iran, Islamic Republic of"),
   ("North Korea", "Korea, Democratic People\x27s Republic of"),
   ("South Korea", "Korea, Republic of"),
   ("United Kingdom", "United Kingdom of Great Britain and Northern Ireland"),
   ("Pacific Ocean", "USA")]

/-- Series.replace with the alias dict: a token equal to a key is replaced by
its value, any other token passes through unchanged. -/
def applyAlias (tok : String) : String := ((update.lookup tok).getD tok)

/-- Split of a character list on the two-character separator comma-space,
left to right, non-overlapping: the semantics of str.split with that
separator. -/
def splitCS : List Char → List (List Char)
  | [] => [[]]
  | [c] => [[c]]
  | c :: d :: rest =>
    if c = ',' ∧ d = ' ' then [] :: splitCS rest
    else
      match splitCS (d :: rest) with
      | [] => [[c]]
      | t :: ts => (c :: t) :: ts

/-- Split of the location string on the comma-space separator. -/
def pySplit (s : String) : List String := (splitCS s.data).map String.mk

/-- Last segment of the location string split on the comma-space separator
(the .str[-1] step of the source). -/
def lastToken (s : String) : String := (pySplit s).getLastD ""

/-- Country column derivation of load_data: last comma-separated token of the
location, then one pass of alias substitution. -/
def deriveCountry (loc : String) : String := applyAlias (lastToken loc)

/-- Error raised when a resolved country name has no alpha-3 entry. -/
structure UnknownCountryError where
  name : String
deriving DecidableEq

/-- Modelled from the spec: the ISO 3166-1 alpha-3 reference lookup
(iso3166.countries.get(x).alpha3 in the source) is a third-party table that is
not part of this repository; it is modelled as a lookup in a reference table
passed as a parameter, failing with UnknownCountryError when the name has no
entry. -/
def countriesGet (iso : List (String × String)) (name : String) :
    Except UnknownCountryError String :=
  match iso.lookup name with
  | some code => Except.ok code
  | none => Except.error (UnknownCountryError.mk name)

/-- load_data over a list of raw rows: parse the date (unparseable becomes
none), derive Country from Location, resolve the Country Code for every row;
the first row whose country has no reference entry aborts the whole load. -/
def loadData (iso : List (String × String)) (parseDate : String → Option Date) :
    List RawRow → Except UnknownCountryError (List Row)
  | [] => Except.ok []
  | raw :: rest =>
    match countriesGet iso (deriveCountry raw.location) with
    | Except.error e => Except.error e
    | Except.ok code =>
      match loadData iso parseDate rest with
      | Except.error e => Except.error e
      | Except.ok rows =>
        Except.ok (Row.mk raw.location (parseDate raw.dateStr) raw.organisation
          raw.missionStatus (deriveCountry raw.location) code :: rows)

/-- Distinct elements of a list in order of first appearance, skipping the
accumulator (pandas keeps the first occurrence of each group key). -/
def dedupFirst {K : Type} [DecidableEq K] (seen : List K) : List K → List K
  | [] => []
  | k :: ks => if k ∈ seen then dedupFirst seen ks else k :: dedupFirst (k :: seen) ks

/-- pandas groupby(key).size(): one pair per distinct key value, keys sorted
ascending, each with the number of elements having that key. -/
def groupCount {α K : Type} [DecidableEq K] (r : K → K → Prop) [DecidableRel r]
    (key : α → K) (xs : List α) : List (K × Nat) :=
  (List.insertionSort r (dedupFirst [] (xs.map key))).map
    (fun k => (k, (xs.filter (fun x => decide (key x = k))).length))

/-- Rows with a parseable date, paired with that date (dropna(subset=[ ...])
or the NaN-key dropping of a groupby on Date.dt.year). -/
def withDate (rows : List Row) : List (Date × Row) :=
  rows.filterMap (fun r => r.date.map (fun d => (d, r)))

/-- Branch 1, Number of Launches by Organisation: value_counts of the
Organisation column — one pair per distinct organisation with its row count,
sorted descending by count (stable, so ties keep first-appearance order). -/
def noOfLaunchesPerCompany (rows : List Row) : List (String × Nat) :=
  List.insertionSort CountGe
    ((dedupFirst [] (rows.map Row.organisation)).map
      (fun o => (o, (rows.filter (fun r => decide (r.organisation = o))).length)))

/-- Branch 2, Number of Launches by Country: groupby (Country, Country Code)
with row counts. -/
def launchesByCountry (rows : List Row) : List ((String × String) × Nat) :=
  groupCount StrStrLe (fun r => (r.country, r.countryCode)) rows

/-- Branch 3, yearly series: rows with parseable dates grouped by launch
year with counts. -/
def launchesPerYear (rows : List Row) : List (Nat × Nat) :=
  groupCount (fun a b : Nat => a ≤ b) (fun p => p.1.year) (withDate rows)

/-- Branch 3, monthly series: rows with parseable dates grouped by exact Date
value with counts, ordered by date. -/
def launchesMonthOnMonth (rows : List Row) : List (Date × Nat) :=
  groupCount DateLe (fun p => p.1) (withDate rows)

/-- Trailing rolling mean with window w over a series of counts
(Series.rolling(w).mean()): undefined (none) before the w-th entry, from the
w-th entry on the mean of the w-entry window ending at that entry. -/
def rollingMean (w : Nat) (xs : List Nat) : List (Option ℚ) :=
  (List.range xs.length).map (fun i =>
    if i + 1 < w then none
    else some ((((xs.take (i + 1)).drop (i + 1 - w)).map (fun n : Nat => (n : ℚ))).sum / w))

/-- Branch 3, monthly series with the Rolling Average column attached. -/
def launchesWithRolling (rows : List Row) : List (Date × Nat × Option ℚ) :=
  ((launchesMonthOnMonth rows).zip
      (rollingMean 30 ((launchesMonthOnMonth rows).map Prod.snd))).map
    (fun p => (p.1.1, p.1.2, p.2))

/-- Branch 4 scalar: number of rows (after the drop of unparseable dates)
whose Mission_Status is exactly the string Success. -/
def successfulMissions (rows : List Row) : Nat :=
  ((withDate rows).filter (fun p => decide (p.2.missionStatus = "Success"))).length

/-- Branch 4 scalar: number of rows (after the drop of unparseable dates)
whose Mission_Status is exactly the string Failure. -/
def failedMissions (rows : List Row) : Nat :=
  ((withDate rows).filter (fun p => decide (p.2.missionStatus = "Failure"))).length

/-- Branch 4 series: groupby (year, Mission_Status) with counts. -/
def missionStatusYearOnYear (rows : List Row) : List ((Nat × String) × Nat) :=
  groupCount YearStrLe (fun p => (p.1.year, p.2.missionStatus)) (withDate rows)

/-- Branch 4 series restricted to the Failure status. -/
def missionFailuresYearOnYear (rows : List Row) : List ((Nat × String) × Nat) :=
  (missionStatusYearOnYear rows).filter (fun p => decide (p.1.2 = "Failure"))

/-- Cold War recoding of the Country column: rows whose launch year is at most
1991 have Russian Federation and Kazakhstan replaced by USSR, later rows keep
their resolved country. -/
def coldWarRecode (y : Nat) (c : String) : String :=
  if y ≤ 1991 then
    (if c = "Russian Federation" ∨ c = "Kazakhstan" then "USSR" else c)
  else c

/-- Branch 5, Cold War Space Race: drop unparseable dates, recode the Country
column for rows up to 1991, filter to years up to 1991, group by
(year, Country) with counts. -/
def coldWarLaunches (rows : List Row) : List ((Nat × String) × Nat) :=
  groupCount YearStrLe (fun p => (p.1.year, p.2.country))
    (((withDate rows).map
        (fun p => (p.1, Row.mk p.2.location p.2.date p.2.organisation
          p.2.missionStatus (coldWarRecode p.1.year p.2.country) p.2.countryCode))).filter
      (fun p => decide (p.1.year ≤ 1991)))

/-- Branch 5 result set: the grouped Cold War counts restricted to the USA and
USSR countries (isin filter). -/
def coldWarLaunchesUSAUSSR (rows : List Row) : List ((Nat × String) × Nat) :=
  (coldWarLaunches rows).filter (fun p => decide (p.1.2 = "USA" ∨ p.1.2 = "USSR"))

/-- What the Cold War branch renders: an explicit no-data message when the
filtered result set is empty, otherwise the pie chart over that set. -/
inductive ColdWarView where
  | noData
  | chart (data : List ((Nat × String) × Nat))
deriving DecidableEq

/-- Branch 5 rendering decision (the emptiness check of the source). -/
def coldWarView (rows : List Row) : ColdWarView :=
  if coldWarLaunchesUSAUSSR rows = [] then ColdWarView.noData
  else ColdWarView.chart (coldWarLaunchesUSAUSSR rows)

/-- Branch 6: groupby (year, Organisation) with counts over rows with
parseable dates. -/
def launchesPerYearOrg (rows : List Row) : List ((Nat × String) × Nat) :=
  groupCount YearStrLe (fun p => (p.1.year, p.2.organisation)) (withDate rows)

/-- Branch 6: per-organisation totals — groupby Organisation (keys sorted
ascending) summing the per-year counts. -/
def orgTotals (rows : List Row) : List (String × Nat) :=
  (List.insertionSort StrLe (dedupFirst [] ((launchesPerYearOrg rows).map (fun p => p.1.2)))).map
    (fun o => (o, (((launchesPerYearOrg rows).filter (fun p => decide (p.1.2 = o))).map Prod.snd).sum))

/-- Branch 6: the 10 organisations with the largest totals —
sort_values(ascending=False).head(10). -/
def top10Organizations (rows : List Row) : List (String × Nat) :=
  (List.insertionSort CountGe (orgTotals rows)).take 10

/-- Branch 6 output: the per-year table restricted by inner merge to the
selected organisations. -/
def launchesTop10PerYear (rows : List Row) : List ((Nat × String) × Nat) :=
  (launchesPerYearOrg rows).filter
    (fun p => decide (p.1.2 ∈ (top10Organizations rows).map Prod.fst))

/-- Branch 7: total missions per year (groupby on Date.dt.year drops rows
with unparseable dates). -/
def totalMissionsPerYear (rows : List Row) : List (Nat × Nat) :=
  groupCount (fun a b : Nat => a ≤ b) (fun p => p.1.year) (withDate rows)

/-- Branch 7: failed missions per year over the Failure-filtered frame. -/
def failuresPerYear (rows : List Row) : List (Nat × Nat) :=
  groupCount (fun a b : Nat => a ≤ b) (fun p => p.1.year)
    ((withDate rows).filter (fun p => decide (p.2.missionStatus = "Failure")))

/-- Branch 7 output: the failures-per-year frame with the Percentage column.
The division of the two freshly reindexed series aligns by row position, as in
the source: the failure count at position i is divided by the total count at
position i (none past the end of the totals, where pandas produces NaN). -/
def missionFailuresOverTime (rows : List Row) : List (Nat × Nat × Option ℚ) :=
  (List.enum (failuresPerYear rows)).map (fun p =>
    (p.2.1, p.2.2, ((totalMissionsPerYear rows)[p.1]?).map
      (fun t => ((p.2.2 : ℚ) / (t.2 : ℚ)) * 100)))

/-- The seven analysis identifiers of the selection control. -/
inductive Analysis where
  | byOrganisation
  | byCountry
  | overTime
  | successFailures
  | coldWar
  | topOrgPerYear
  | failuresOverTime
deriving DecidableEq

/-- Chart-ready output of one aggregation. -/
inductive Output where
  | orgTable (t : List (String × Nat))
  | countryTable (t : List ((String × String) × Nat))
  | timeTables (yearly : List (Nat × Nat)) (monthly : List (Date × Nat × Option ℚ))
  | statusSummary (succ fail : Nat) (failSeries : List ((Nat × String) × Nat))
  | coldWarOut (v : ColdWarView)
  | topOrgTable (t : List ((Nat × String) × Nat))
  | failurePct (t : List (Nat × Nat × Option ℚ))

/-- Dispatch of the analysis selector: each identifier runs its aggregation
over the normalised table. -/
def runAnalysis (a : Analysis) (rows : List Row) : Output :=
  match a with
  | Analysis.byOrganisation => Output.orgTable (noOfLaunchesPerCompany rows)
  | Analysis.byCountry => Output.countryTable (launchesByCountry rows)
  | Analysis.overTime => Output.timeTables (launchesPerYear rows) (launchesWithRolling rows)
  | Analysis.successFailures =>
    Output.statusSummary (successfulMissions rows) (failedMissions rows)
      (missionFailuresYearOnYear rows)
  | Analysis.coldWar => Output.coldWarOut (coldWarView rows)
  | Analysis.topOrgPerYear => Output.topOrgTable (launchesTop10PerYear rows)
  | Analysis.failuresOverTime => Output.failurePct (missionFailuresOverTime rows)

/-- Session state: the normalised table memoized by the loader. -/
structure Session where
  cache : List Row

/-- Modelled from the spec: st.cache_data memoizes the loaded table and each
script run obtains it from the cache; branch-local drops, fills and recodes
(such as those of the Cold War branch) act on that run's working frame, so a
step returns the cache as it was. -/
def step (s : Session) (a : Analysis) : Output × Session :=
  (runAnalysis a s.cache, s)

/-- A whole session: one step per selected analysis. -/
def runAll (s : Session) : List Analysis → Session
  | [] => s
  | a :: rest => runAll (step s a).2 rest

/-- Reference table used to exercise the loader on concrete inputs. -/
def c3iso : List (String × String) :=
  [("USA", "USA"), ("Russian Federation", "RUS"), ("Kazakhstan", "KAZ")]

/-- Raw row whose location resolves to a country missing from c3iso. -/
def c3bad : RawRow := RawRow.mk "Launch Pad, Atlantis" "1960-01-01" "B" "Failure"

/-- Raw row whose location resolves through the alias table to a covered
country. -/
def c3good : RawRow := RawRow.mk "Site 1, Russia" "1960-01-01" "A" "Success"

/-! Helper lemmas about the group-by machinery. -/

theorem mem_dedupFirst {K : Type} [DecidableEq K] (seen l : List K) (x : K) :
    x ∈ dedupFirst seen l ↔ x ∈ l ∧ x ∉ seen := by
  induction l generalizing seen with
  | nil => simp [dedupFirst]
  | cons k ks ih =>
    by_cases hk : k ∈ seen
    · rw [dedupFirst, if_pos hk, ih]
      constructor
      · rintro ⟨hx, hs⟩
        exact ⟨List.mem_cons_of_mem _ hx, hs⟩
      · rintro ⟨hx, hs⟩
        rcases List.mem_cons.mp hx with h | h
        · exact absurd (h ▸ hk) hs
        · exact ⟨h, hs⟩
    · rw [dedupFirst, if_neg hk]
      constructor
      · intro hx
        rcases List.mem_cons.mp hx with h | h
        · exact ⟨h ▸ List.mem_cons_self _ _, h ▸ hk⟩
        · rcases (ih (k :: seen)).mp h with ⟨h1, h2⟩
          exact ⟨List.mem_cons_of_mem _ h1,
            fun hs => h2 (List.mem_cons_of_mem _ hs)⟩
      · rintro ⟨hx, hs⟩
        rcases List.mem_cons.mp hx with h | h
        · exact h ▸ List.mem_cons_self _ _
        · by_cases hxk : x = k
          · exact hxk ▸ List.mem_cons_self _ _
          · exact List.mem_cons_of_mem _ ((ih (k :: seen)).mpr
              ⟨h, fun hm => (List.mem_cons.mp hm).elim hxk hs⟩)

theorem dedupFirst_nodup {K : Type} [DecidableEq K] (seen l : List K) :
    (dedupFirst seen l).Nodup := by
  induction l generalizing seen with
  | nil => simp [dedupFirst]
  | cons k ks ih =>
    by_cases hk : k ∈ seen
    · rw [dedupFirst, if_pos hk]; exact ih seen
    · rw [dedupFirst, if_neg hk]
      refine List.nodup_cons.mpr ⟨fun hm => ?_, ih (k :: seen)⟩
      exact ((mem_dedupFirst _ _ _).mp hm).2 (List.mem_cons_self _ _)

theorem groupCount_keys {α K : Type} [DecidableEq K] (r : K → K → Prop) [DecidableRel r]
    (key : α → K) (xs : List α) :
    (groupCount r key xs).map Prod.fst =
      List.insertionSort r (dedupFirst [] (xs.map key)) := by
  rw [groupCount, List.map_map]
  show List.map (fun k : K => k) _ = _
  simp

theorem key_mem_groupCount {α K : Type} [DecidableEq K] (r : K → K → Prop) [DecidableRel r]
    (key : α → K) (xs : List α) (k : K) :
    k ∈ (groupCount r key xs).map Prod.fst ↔ k ∈ xs.map key := by
  rw [groupCount_keys, (List.perm_insertionSort r _).mem_iff, mem_dedupFirst]
  simp

theorem groupCount_nodup_keys {α K : Type} [DecidableEq K] (r : K → K → Prop) [DecidableRel r]
    (key : α → K) (xs : List α) :
    ((groupCount r key xs).map Prod.fst).Nodup := by
  rw [groupCount_keys]
  exact ((List.perm_insertionSort r _).nodup_iff).mpr (dedupFirst_nodup _ _)

theorem mem_groupCount {α K : Type} [DecidableEq K] (r : K → K → Prop) [DecidableRel r]
    (key : α → K) (xs : List α) (p : K × Nat) (h : p ∈ groupCount r key xs) :
    p.1 ∈ xs.map key ∧
      p.2 = (xs.filter (fun x => decide (key x = p.1))).length := by
  rcases List.mem_map.mp h with ⟨k, hk, hp⟩
  have h1 : p.1 = k := by rw [← hp]
  have h2 : p.2 = (xs.filter (fun x => decide (key x = k))).length := by rw [← hp]
  subst h1
  refine ⟨?_, h2⟩
  have := (List.perm_insertionSort r (dedupFirst [] (xs.map key))).mem_iff.mp hk
  exact ((mem_dedupFirst _ _ _).mp this).1

theorem pairwise_take_drop {α : Type} {r : α → α → Prop} {l : List α} {n : Nat}
    (h : List.Pairwise r l) :
    ∀ a ∈ l.take n, ∀ b ∈ l.drop n, r a b := by
  have hsplit : List.Pairwise r (l.take n ++ l.drop n) := by
    rwa [List.take_append_drop]
  exact (List.pairwise_append.mp hsplit).2.2

theorem lookup_eq_none_of_not_mem_keys {β : Type} (l : List (String × β)) (a : String)
    (h : a ∉ l.map Prod.fst) : l.lookup a = none := by
  induction l with
  | nil => rfl
  | cons p ps ih =>
    simp only [List.map_cons, List.mem_cons, not_or] at h
    cases p with
    | mk k b =>
      have hne : (a == k) = false := beq_false_of_ne h.1
      simp [List.lookup, hne, ih h.2]

theorem mem_of_lookup_eq_some {β : Type} (l : List (String × β)) (a : String) (b : β)
    (h : l.lookup a = some b) : (a, b) ∈ l := by
  induction l with
  | nil => cases h
  | cons p ps ih =>
    cases p with
    | mk k c =>
      by_cases hak : a = k
      · subst hak
        simp [List.lookup] at h
        simp [h]
      · have hne : (a == k) = false := beq_false_of_ne hak
        simp only [List.lookup, hne] at h
        exact List.mem_cons_of_mem _ (ih h)

/-! Helper lemmas about the loader. -/

theorem loadData_ok_spec (iso : List (String × String)) (parseDate : String → Option Date) :
    ∀ raws rows, loadData iso parseDate raws = Except.ok rows →
      rows.length = raws.length ∧
        ∀ r ∈ rows, iso.lookup r.country = some r.countryCode := by
  intro raws
  induction raws with
  | nil =>
    intro rows h
    simp only [loadData] at h
    cases h
    exact ⟨rfl, by simp⟩
  | cons raw rest ih =>
    intro rows h
    simp only [loadData] at h
    rcases hg : countriesGet iso (deriveCountry raw.location) with e | code
    · rw [hg] at h; cases h
    · rw [hg] at h
      rcases hr : loadData iso parseDate rest with e | rows' <;> rw [hr] at h
      · cases h
      · cases h
        rcases ih rows' hr with ⟨hlen, hmem⟩
        refine ⟨by simp [hlen], ?_⟩
        intro r hrm
        rcases List.mem_cons.mp hrm with h1 | h1
        · subst h1
          simp only [countriesGet] at hg
          rcases hl : iso.lookup (deriveCountry raw.location) with _ | c
          · rw [hl] at hg; cases hg
          · rw [hl] at hg
            cases hg
            simp [hl]
        · exact hmem r h1

theorem loadData_error_of_bad_row (iso : List (String × String))
    (parseDate : String → Option Date) :
    ∀ raws, (∃ raw ∈ raws, iso.lookup (deriveCountry raw.location) = none) →
      ∃ e, loadData iso parseDate raws = Except.error e := by
  intro raws
  induction raws with
  | nil => rintro ⟨raw, hm, _⟩; cases hm
  | cons raw rest ih =>
    rintro ⟨bad, hm, hbad⟩
    rcases List.mem_cons.mp hm with h1 | h1
    · subst h1
      refine ⟨UnknownCountryError.mk (deriveCountry bad.location), ?_⟩
      simp [loadData, countriesGet, hbad]
    · rcases hg : countriesGet iso (deriveCountry raw.location) with e | code
      · exact ⟨e, by simp [loadData, hg]⟩
      · rcases ih ⟨bad, h1, hbad⟩ with ⟨e, he⟩
        exact ⟨e, by simp [loadData, hg, he]⟩

/-- C3: if any row's resolved country has no entry in the alpha-3 reference
table, the whole load fails with an UnknownCountryError (fail-fast); a
successful load drops no row, and every loaded row's Country Code is the
reference-table code of its country, a 3-letter code whenever the reference
table only holds 3-letter codes. -/
theorem C3_unknown_country_fail_fast (iso : List (String × String))
    (parseDate : String → Option Date) (raws : List RawRow) :
    ((∃ raw ∈ raws, iso.lookup (deriveCountry raw.location) = none) →
      ∃ e, loadData iso parseDate raws = Except.error e) ∧
    (∀ rows, loadData iso parseDate raws = Except.ok rows →
      rows.length = raws.length ∧
        ∀ r ∈ rows, iso.lookup r.country = some r.countryCode ∧
          ((∀ p ∈ iso, p.2.length = 3) → r.countryCode.length = 3)) := by
  refine ⟨loadData_error_of_bad_row iso parseDate raws, ?_⟩
  intro rows h
  rcases loadData_ok_spec iso parseDate raws rows h with ⟨hlen, hmem⟩
  refine ⟨hlen, fun r hr => ⟨hmem r hr, fun h3 => ?_⟩⟩
  exact h3 _ (mem_of_lookup_eq_some _ _ _ (hmem r hr))

/-- C3 witness: on a concrete reference table, a load containing a row with an
unknown country fails, and a successful load resolves every code. -/
theorem C3_witness :
    (∃ e, loadData c3iso (fun _ => none) [c3good, c3bad] = Except.error e) ∧
    (∀ r ∈ [Row.mk "Site 1, Russia" none "A" "Success" "Russian Federation" "RUS"],
      c3iso.lookup r.country = some r.countryCode ∧
        ((∀ p ∈ c3iso, p.2.length = 3) → r.countryCode.length = 3)) := by
  constructor
  · exact (C3_unknown_country_fail_fast c3iso (fun _ => none) [c3good, c3bad]).1
      ⟨c3bad, by decide, by decide⟩
  · exact ((C3_unknown_country_fail_fast c3iso (fun _ => none) [c3good]).2
      [Row.mk "Site 1, Russia" none "A" "Success" "Russian Federation" "RUS"] rfl).2

/-- C2: for every input row the derived Country is the alias table applied
exactly once to the last comma-space separated segment of the Location;
tokens with an alias entry map to that entry, tokens without one pass through
unchanged, and the alias table maps exactly the thirteen listed tokens. -/
theorem C2_country_from_location :
    (∀ loc : String, deriveCountry loc = applyAlias (lastToken loc)) ∧
    (∀ tok v : String, (tok, v) ∈ update → applyAlias tok = v) ∧
    (∀ tok : String, tok ∉ update.map Prod.fst → applyAlias tok = tok) ∧
    update.map Prod.fst =
      ["Russia", "New Mexico", "Yellow Sea", "Shahrud Missile Test Site",
       "Pacific Missile Range Facility", "Barents Sea", "Gran Canaria",
       "Marshall Islands", "Iran", "North Korea", "South Korea",
       "United Kingdom", "Pacific Ocean"] ∧
    applyAlias "Russia" = "Russian Federation" ∧
    applyAlias "North Korea" = "Korea, Democratic People\x27s Republic of" := by
  refine ⟨fun loc => rfl, ?_, ?_, by decide, by decide, by decide⟩
  · intro tok v h
    fin_cases h <;> rfl
  · intro tok h
    rw [applyAlias, lookup_eq_none_of_not_mem_keys update tok h]
    rfl

/-- C2 witness: concrete locations, one with an aliased token, one whose
token has no alias entry and passes through. -/
theorem C2_witness :
    deriveCountry "Site 1, Russia" = "Russian Federation" ∧
    deriveCountry "Centre Spatial, France" = "France" := by
  constructor
  · rw [C2_country_from_location.1]
    exact C2_country_from_location.2.1 "Russia" "Russian Federation" (by decide) ▸ rfl
  · rw [C2_country_from_location.1]
    have h := C2_country_from_location.2.2.1 "France" (by decide)
    have hl : lastToken "Centre Spatial, France" = "France" := by decide
    rw [hl, h]

/-- C9: the Cold War view renders the explicit no-data message exactly when
the filtered USA/USSR result set is empty, and otherwise the chart over that
set with no such message. -/
theorem C9_cold_war_no_data (rows : List Row) :
    (coldWarLaunchesUSAUSSR rows = [] → coldWarView rows = ColdWarView.noData) ∧
    (coldWarLaunchesUSAUSSR rows ≠ [] →
      coldWarView rows = ColdWarView.chart (coldWarLaunchesUSAUSSR rows) ∧
        coldWarView rows ≠ ColdWarView.noData) := by
  constructor
  · intro h
    simp [coldWarView, h]
  · intro h
    rw [coldWarView, if_neg h]
    exact ⟨rfl, by simp⟩

/-- C9 witness: the empty table yields the no-data signal; a single USA row
from 1960 yields the chart. -/
theorem C9_witness :
    coldWarView [] = ColdWarView.noData ∧
    coldWarView [Row.mk "Cape, USA" (some (Date.mk 1960 1 1)) "NASA" "Success" "USA" "USA"] =
      ColdWarView.chart [((1960, "USA"), 1)] := by
  constructor
  · exact (C9_cold_war_no_data []).1 (by decide)
  · have h := ((C9_cold_war_no_data
      [Row.mk "Cape, USA" (some (Date.mk 1960 1 1)) "NASA" "Success" "USA" "USA"]).2
        (by decide)).1
    rw [h]
    have : coldWarLaunchesUSAUSSR
        [Row.mk "Cape, USA" (some (Date.mk 1960 1 1)) "NASA" "Success" "USA" "USA"] =
        [((1960, "USA"), 1)] := by decide
    rw [this]

/-- C4: in the Cold War aggregation, rows with launch year at most 1991 have
Russian Federation and Kazakhstan recoded to USSR while later rows keep their
resolved country, and every output row of the filtered result set has year at
most 1991 and country USA or USSR — never Russian Federation or Kazakhstan. -/
theorem C4_cold_war_recoding (rows : List Row) :
    (∀ y c, y ≤ 1991 → (c = "Russian Federation" ∨ c = "Kazakhstan") →
      coldWarRecode y c = "USSR") ∧
    (∀ y c, 1991 < y → coldWarRecode y c = c) ∧
    (∀ p ∈ coldWarLaunchesUSAUSSR rows,
      p.1.1 ≤ 1991 ∧ (p.1.2 = "USA" ∨ p.1.2 = "USSR") ∧
        p.1.2 ≠ "Russian Federation" ∧ p.1.2 ≠ "Kazakhstan") := by
  refine ⟨?_, ?_, ?_⟩
  · intro y c hy hc
    rw [coldWarRecode, if_pos hy, if_pos hc]
  · intro y c hy
    rw [coldWarRecode, if_neg (by omega)]
  · intro p hp
    rcases List.mem_filter.mp hp with ⟨hg, hpred⟩
    have hus : p.1.2 = "USA" ∨ p.1.2 = "USSR" := of_decide_eq_true hpred
    have hyear : p.1.1 ≤ 1991 := by
      rcases (mem_groupCount _ _ _ p hg).1 with hk
      rcases List.mem_map.mp hk with ⟨x, hx, hkey⟩
      rcases List.mem_filter.mp hx with ⟨_, hxpred⟩
      have : x.1.year ≤ 1991 := of_decide_eq_true hxpred
      rw [← hkey]
      exact this
    refine ⟨hyear, hus, ?_, ?_⟩
    · rcases hus with h | h <;> rw [h] <;> decide
    · rcases hus with h | h <;> rw [h] <;> decide

/-- C4 witness: the recoding at concrete years and countries, and the output
row of a single 1960 Kazakhstan launch, which shows up as USSR. -/
theorem C4_witness :
    coldWarRecode 1960 "Kazakhstan" = "USSR" ∧
    coldWarRecode 1995 "Russian Federation" = "Russian Federation" ∧
    ((((1960, "USSR"), 1) : (Nat × String) × Nat).1.1 ≤ 1991 ∧
      ((((1960, "USSR"), 1) : (Nat × String) × Nat).1.2 = "USA" ∨
        (((1960, "USSR"), 1) : (Nat × String) × Nat).1.2 = "USSR")) := by
  refine ⟨(C4_cold_war_recoding []).1 1960 "Kazakhstan" (by decide) (Or.inr rfl),
    (C4_cold_war_recoding []).2.1 1995 "Russian Federation" (by decide), ?_⟩
  have h := (C4_cold_war_recoding
      [Row.mk "Baikonur, Kazakhstan" (some (Date.mk 1960 1 1)) "RVSN" "Success" "Kazakhstan" "KAZ"]).2.2
    (((1960, "USSR"), 1)) (by decide)
  exact ⟨h.1, h.2.1⟩

/-- Row with a Success status whose date string did not parse. -/
def c5row : Row := Row.mk "Site, USA" none "A" "Success" "USA" "USA"

/-- C5 counterexample: the claim counts Success rows of the whole normalised
table, but the branch drops rows with unparseable dates before counting — on a
table whose single Success row has a null date the code counts zero while the
normalised table holds one Success row. -/
theorem C5_counterexample :
    successfulMissions [c5row] = 0 ∧
    (List.filter (fun r => decide (r.missionStatus = "Success")) [c5row]).length = 1 := by
  constructor <;> decide

theorem withDate_filter_status (rows : List Row) (s : String) :
    ((withDate rows).filter (fun p => decide (p.2.missionStatus = s))).length =
      (rows.filter (fun r => decide (r.date.isSome ∧ r.missionStatus = s))).length := by
  induction rows with
  | nil => rfl
  | cons r rows ih =>
    rcases hd : r.date with _ | d
    · simp only [withDate, List.filterMap_cons, hd, Option.map_none']
      rw [withDate] at ih
      rw [ih, List.filter_cons]
      have : decide (r.date.isSome = true ∧ r.missionStatus = s) = false := by
        simp [hd]
      rw [this]
      simp
    · simp only [withDate, List.filterMap_cons, hd, Option.map_some']
      rw [withDate] at ih
      by_cases hs : r.missionStatus = s
      · rw [List.filter_cons, List.filter_cons]
        have h1 : decide ((d, r).2.missionStatus = s) = true := by simp [hs]
        have h2 : decide (r.date.isSome = true ∧ r.missionStatus = s) = true := by
          simp [hd, hs]
        rw [h1, h2]
        simp [ih]
      · rw [List.filter_cons, List.filter_cons]
        have h1 : decide ((d, r).2.missionStatus = s) = false := by simp [hs]
        have h2 : decide (r.date.isSome = true ∧ r.missionStatus = s) = false := by
          simp [hs]
        rw [h1, h2]
        simp [ih]

/-- C5 amended: the successful-missions scalar counts the rows with a
parseable date and Mission_Status exactly Success, the failed-missions scalar
those with a parseable date and Mission_Status exactly Failure (exact
case-sensitive match, so any other status is counted in neither); rows with
unparseable dates are excluded because the branch drops them before counting. -/
theorem C5_success_failure_counts (rows : List Row) :
    successfulMissions rows =
      (rows.filter (fun r => decide (r.date.isSome ∧ r.missionStatus = "Success"))).length ∧
    failedMissions rows =
      (rows.filter (fun r => decide (r.date.isSome ∧ r.missionStatus = "Failure"))).length :=
  ⟨withDate_filter_status rows "Success", withDate_filter_status rows "Failure"⟩

instance : IsTrans (String × Nat) CountGe :=
  ⟨fun _ _ _ h1 h2 => Nat.le_trans h2 h1⟩

instance : IsTotal (String × Nat) CountGe :=
  ⟨fun a b => (Nat.le_total b.2 a.2).elim Or.inl Or.inr⟩

/-- Rows giving organisation A one launch and organisation B two. -/
def c8rows : List Row :=
  [Row.mk "Cape, USA" (some (Date.mk 1965 1 1)) "A" "Success" "USA" "USA",
   Row.mk "Cape, USA" (some (Date.mk 1966 1 1)) "B" "Success" "USA" "USA",
   Row.mk "Cape, USA" (some (Date.mk 1967 1 1)) "B" "Failure" "USA" "USA"]

/-- C8 counterexample: with one A row and two B rows the organisation table is
[(B, 2), (A, 1)] — value_counts sorts descending — so the output table is not
sorted ascending by the launch count, contrary to the claim. -/
theorem C8_counterexample :
    noOfLaunchesPerCompany c8rows = [("B", 2), ("A", 1)] ∧
    ¬ List.Pairwise (fun a b : String × Nat => a.2 ≤ b.2) (noOfLaunchesPerCompany c8rows) := by
  constructor <;> decide

/-- C8 amended: the aggregation produces one pair per distinct organisation
with its row count, but the output table is sorted DESCENDING by the launch
count (the value_counts default); the ascending ordering of the claim exists
only in the chart layout option. -/
theorem C8_launches_by_organisation (rows : List Row) :
    List.Pairwise CountGe (noOfLaunchesPerCompany rows) ∧
    ((noOfLaunchesPerCompany rows).map Prod.fst).Nodup ∧
    (∀ o, o ∈ (noOfLaunchesPerCompany rows).map Prod.fst ↔
      o ∈ rows.map Row.organisation) ∧
    (∀ p ∈ noOfLaunchesPerCompany rows,
      p.2 = (rows.filter (fun r => decide (r.organisation = p.1))).length) := by
  have hperm := List.perm_insertionSort CountGe
    ((dedupFirst [] (rows.map Row.organisation)).map
      (fun o => (o, (rows.filter (fun r => decide (r.organisation = o))).length)))
  have hmapfst :
      ((dedupFirst [] (rows.map Row.organisation)).map
        (fun o => (o, (rows.filter (fun r => decide (r.organisation = o))).length))).map Prod.fst =
      dedupFirst [] (rows.map Row.organisation) := by
    rw [List.map_map]
    show List.map (fun o : String => o) _ = _
    simp
  refine ⟨List.sorted_insertionSort CountGe _, ?_, ?_, ?_⟩
  · rw [noOfLaunchesPerCompany]
    refine ((hperm.map Prod.fst).nodup_iff).mpr ?_
    rw [hmapfst]
    exact dedupFirst_nodup _ _
  · intro o
    rw [noOfLaunchesPerCompany, (hperm.map Prod.fst).mem_iff, hmapfst, mem_dedupFirst]
    simp
  · intro p hp
    have hp' := hperm.mem_iff.mp hp
    rcases List.mem_map.mp hp' with ⟨o, _, hpo⟩
    rw [← hpo]

/-- C8 witness for the amended theorem: the count of organisation B in the
concrete table is its row count. -/
theorem C8_witness :
    (("B", 2) : String × Nat).2 =
      (c8rows.filter (fun r => decide (r.organisation = (("B", 2) : String × Nat).1))).length := by
  exact (C8_launches_by_organisation c8rows).2.2.2 ("B", 2) (by decide)

/-- C7: every one of the selected top-10 organisations has a total launch
count at least that of every non-selected organisation, and the per-year
output table holds exactly the per-year rows of the selected organisations. -/
theorem C7_top10_organisations (rows : List Row) :
    (∀ s ∈ top10Organizations rows, ∀ t ∈ orgTotals rows,
      t.1 ∉ (top10Organizations rows).map Prod.fst → t.2 ≤ s.2) ∧
    (∀ p, p ∈ launchesTop10PerYear rows ↔
      p ∈ launchesPerYearOrg rows ∧ p.1.2 ∈ (top10Organizations rows).map Prod.fst) := by
  constructor
  · intro s hs t ht hnot
    have hsorted : List.Pairwise CountGe (List.insertionSort CountGe (orgTotals rows)) :=
      List.sorted_insertionSort CountGe (orgTotals rows)
    have htin : t ∈ List.insertionSort CountGe (orgTotals rows) :=
      (List.perm_insertionSort CountGe (orgTotals rows)).mem_iff.mpr ht
    have hcases : t ∈ (List.insertionSort CountGe (orgTotals rows)).take 10 ∨
        t ∈ (List.insertionSort CountGe (orgTotals rows)).drop 10 := by
      rw [← List.mem_append, List.take_append_drop]
      exact htin
    rcases hcases with h | h
    · exact absurd (List.mem_map_of_mem Prod.fst h) hnot
    · exact pairwise_take_drop hsorted s hs t h
  · intro p
    rw [launchesTop10PerYear, List.mem_filter]
    constructor
    · rintro ⟨h1, h2⟩
      exact ⟨h1, of_decide_eq_true h2⟩
    · rintro ⟨h1, h2⟩
      exact ⟨h1, decide_eq_true h2⟩

/-- Table with organisation A launching twice in 1960 and ten other
organisations launching once each. -/
def c7rows : List Row :=
  [Row.mk "Cape, USA" (some (Date.mk 1960 1 1)) "A" "Success" "USA" "USA",
   Row.mk "Cape, USA" (some (Date.mk 1960 2 1)) "A" "Success" "USA" "USA",
   Row.mk "Cape, USA" (some (Date.mk 1960 3 1)) "B" "Success" "USA" "USA",
   Row.mk "Cape, USA" (some (Date.mk 1960 4 1)) "C" "Success" "USA" "USA",
   Row.mk "Cape, USA" (some (Date.mk 1960 5 1)) "D" "Success" "USA" "USA",
   Row.mk "Cape, USA" (some (Date.mk 1960 6 1)) "E" "Success" "USA" "USA",
   Row.mk "Cape, USA" (some (Date.mk 1960 7 1)) "F" "Success" "USA" "USA",
   Row.mk "Cape, USA" (some (Date.mk 1960 8 1)) "G" "Success" "USA" "USA",
   Row.mk "Cape, USA" (some (Date.mk 1960 9 1)) "H" "Success" "USA" "USA",
   Row.mk "Cape, USA" (some (Date.mk 1960 10 1)) "I" "Success" "USA" "USA",
   Row.mk "Cape, USA" (some (Date.mk 1960 11 1)) "J" "Success" "USA" "USA",
   Row.mk "Cape, USA" (some (Date.mk 1960 12 1)) "K" "Success" "USA" "USA"]

/-- C7 witness: with eleven organisations the one left out (K, total 1) has a
total at most that of the selected organisation A (total 2), and the A row of
1960 stays in the per-year output. -/
theorem C7_witness :
    (("K", 1) : String × Nat).2 ≤ (("A", 2) : String × Nat).2 ∧
    ((1960, "A"), 2) ∈ launchesTop10PerYear c7rows := by
  constructor
  · exact (C7_top10_organisations c7rows).1 ("A", 2) (by decide) ("K", 1) (by decide)
      (by decide)
  · exact ((C7_top10_organisations c7rows).2 ((1960, "A"), 2)).mpr ⟨by decide, by decide⟩

/-- Table with one 1957 Success mission and two 1960 Failure missions: the
failure-grouped series starts at 1960 while the totals series starts at 1957. -/
def c1rows : List Row :=
  [Row.mk "Cape, USA" (some (Date.mk 1957 1 1)) "A" "Success" "USA" "USA",
   Row.mk "Cape, USA" (some (Date.mk 1960 1 1)) "B" "Failure" "USA" "USA",
   Row.mk "Cape, USA" (some (Date.mk 1960 2 1)) "C" "Failure" "USA" "USA"]

/-- C1: the code divides the two freshly reindexed series by row position, not
by year value.  On c1rows the year 1960 has 2 failures out of 2 missions, so
the claimed percentage is 100 · 2/2 = 100 and lies within 0..100; the code
instead divides the 1960 failure count by the 1957 total (both at position 0)
and outputs 200, violating both the per-year equation and the 0..100 bound. -/
theorem C1_positional_misalignment :
    missionFailuresOverTime c1rows = [(1960, 2, some 200)] ∧
    totalMissionsPerYear c1rows = [(1957, 1), (1960, 2)] ∧
    failuresPerYear c1rows = [(1960, 2)] ∧
    ((100 : ℚ) * 2 / 2 = 100) ∧ ¬ ((200 : ℚ) ≤ 100) := by
  have hf : failuresPerYear c1rows = [(1960, 2)] := by decide
  have ht : totalMissionsPerYear c1rows = [(1957, 1), (1960, 2)] := by decide
  refine ⟨?_, ht, hf, by norm_num, by norm_num⟩
  rw [missionFailuresOverTime, hf, ht]
  simp [List.enum, List.enumFrom]
  norm_num

theorem dateLe_iff (a b : Date) :
    DateLe a b ↔ (a.year < b.year ∨ (a.year = b.year ∧
      (a.month < b.month ∨ (a.month = b.month ∧ a.day ≤ b.day)))) := by
  rw [DateLe, dateLeB]
  split_ifs with h1 h2 h3 h4 <;> simp <;> omega

instance : IsTrans Date DateLe :=
  ⟨fun a b c hab hbc => by
    rw [dateLe_iff] at hab hbc ⊢
    omega⟩

instance : IsTotal Date DateLe :=
  ⟨fun a b => by
    rw [dateLe_iff, dateLe_iff]
    omega⟩

theorem rollingMean_length (w : Nat) (xs : List Nat) :
    (rollingMean w xs).length = xs.length := by
  simp [rollingMean]

theorem rollingMean_before_window (w : Nat) (xs : List Nat) (i : Nat)
    (h : i + 1 < w) (hi : i < xs.length) :
    (rollingMean w xs)[i]? = some none := by
  rw [rollingMean, List.getElem?_map, List.getElem?_range hi]
  simp [h]

theorem rollingMean_window (xs : List Nat) (i : Nat) (h29 : 29 ≤ i) (hi : i < xs.length) :
    (rollingMean 30 xs)[i]? = some (some
      ((((List.range 30).map (fun j => ((xs.getD (i - 29 + j) 0 : Nat) : ℚ))).sum) / 30)) := by
  rw [rollingMean, List.getElem?_map, List.getElem?_range hi]
  have hif : ¬ (i + 1 < 30) := by omega
  rw [Option.map_some', if_neg hif]
  have hwin : (xs.take (i + 1)).drop (i + 1 - 30) =
      (List.range 30).map (fun j => xs.getD (i - 29 + j) 0) := by
    apply List.ext_getElem?
    intro n
    by_cases hn : n < 30
    · rw [List.getElem?_drop]
      have hidx : i + 1 - 30 + n = i - 29 + n := by omega
      rw [hidx, List.getElem?_take_of_lt (by omega : i - 29 + n < i + 1)]
      rw [List.getElem?_map, List.getElem?_range hn]
      have hb : i - 29 + n < xs.length := by omega
      rw [List.getElem?_eq_getElem hb, Option.map_some', List.getD_eq_getElem xs 0 hb]
    · rw [List.getElem?_drop]
      have h1 : (xs.take (i + 1))[i + 1 - 30 + n]? = none := by
        apply List.getElem?_eq_none
        rw [List.length_take]
        omega
      have h2 : ((List.range 30).map (fun j => xs.getD (i - 29 + j) 0))[n]? = none := by
        apply List.getElem?_eq_none
        rw [List.length_map, List.length_range]
        omega
      rw [h1, h2]
  rw [hwin, List.map_map]
  rfl

/-- C6: the monthly series groups the rows per exact date value, ordered by
date (one entry per distinct launch date, so the window spans 30 distinct
dates with at least one launch, not 30 calendar days); the rolling average is
undefined for the first 29 positions and from position 29 (0-based, the 30th
entry) on equals the mean of the 30 trailing per-date counts at positions
i - 29 through i. -/
theorem C6_monthly_rolling (rows : List Row) :
    List.Pairwise DateLe ((launchesMonthOnMonth rows).map Prod.fst) ∧
    (∀ d : Date, d ∈ (launchesMonthOnMonth rows).map Prod.fst ↔
      d ∈ (withDate rows).map (fun p => p.1)) ∧
    (∀ p ∈ launchesMonthOnMonth rows,
      p.2 = ((withDate rows).filter (fun x => decide (x.1 = p.1))).length) ∧
    (rollingMean 30 ((launchesMonthOnMonth rows).map Prod.snd)).length =
      (launchesMonthOnMonth rows).length ∧
    (∀ i, i + 1 < 30 → i < (launchesMonthOnMonth rows).length →
      (rollingMean 30 ((launchesMonthOnMonth rows).map Prod.snd))[i]? = some none) ∧
    (∀ i, 29 ≤ i → i < (launchesMonthOnMonth rows).length →
      (rollingMean 30 ((launchesMonthOnMonth rows).map Prod.snd))[i]? = some (some
        ((((List.range 30).map (fun j =>
          ((((launchesMonthOnMonth rows).map Prod.snd).getD (i - 29 + j) 0 : Nat) : ℚ))).sum)
          / 30))) := by
  refine ⟨?_, ?_, ?_, ?_, ?_, ?_⟩
  · rw [launchesMonthOnMonth, groupCount_keys]
    exact List.sorted_insertionSort DateLe _
  · intro d
    exact key_mem_groupCount DateLe (fun p => p.1) (withDate rows) d
  · intro p hp
    have hp' : p ∈ groupCount DateLe (fun p : Date × Row => p.1) (withDate rows) := hp
    exact (mem_groupCount DateLe (fun p : Date × Row => p.1) (withDate rows) p hp').2
  · rw [rollingMean_length, List.length_map]
  · intro i h hi
    exact rollingMean_before_window 30 _ i h (by simpa using hi)
  · intro i h29 hi
    exact rollingMean_window _ i h29 (by simpa using hi)

/-- Table with one launch on each of 30 distinct dates. -/
def c6rows : List Row :=
  (List.range 30).map (fun j =>
    Row.mk "Cape, USA" (some (Date.mk (1957 + j) 1 1)) "A" "Success" "USA" "USA")

/-- C6 witness: with one launch on each of 30 distinct dates the 30th rolling
average entry is defined and equals 1. -/
theorem C6_witness :
    (rollingMean 30 ((launchesMonthOnMonth c6rows).map Prod.snd))[29]? = some (some 1) := by
  have hlen : (launchesMonthOnMonth c6rows).length = 30 := by decide
  have h := (C6_monthly_rolling c6rows).2.2.2.2.2 29 (by omega) (by omega)
  rw [h]
  have hc : (launchesMonthOnMonth c6rows).map Prod.snd = List.replicate 30 1 := by decide
  rw [hc]
  have hcomp : ((List.range 30).map (fun j =>
      (((List.replicate 30 1 : List Nat).getD (29 - 29 + j) 0 : Nat) : ℚ))) =
      (((List.range 30).map (fun j => (List.replicate 30 1 : List Nat).getD (29 - 29 + j) 0)).map
        (fun n : Nat => (n : ℚ))) := by
    rw [List.map_map]
    rfl
  have hnat : ((List.range 30).map
      (fun j => (List.replicate 30 1 : List Nat).getD (29 - 29 + j) 0)) =
      List.replicate 30 1 := by decide
  rw [hcomp, hnat, List.map_replicate, List.sum_replicate]
  norm_num

/-- C10: running any aggregation leaves the cached normalised table unchanged,
a later aggregation in the same session produces the same output as if run
first, and any sequence of analyses preserves the cache. -/
theorem C10_cache_unchanged (s : Session) (a : Analysis) (rest : List Analysis) :
    (step s a).2.cache = s.cache ∧
    (∀ a2 : Analysis, (step (step s a).2 a2).1 = (step s a2).1) ∧
    (runAll s rest).cache = s.cache := by
  refine ⟨rfl, fun a2 => rfl, ?_⟩
  induction rest generalizing s with
  | nil => rfl
  | cons a' rest' ih => exact ih s

end SpaceMissions
